import Mathlib

/-!
Verification development for the age-model calibration and splice-compositing
pipeline of the PaleoCore-Analyst repository.

The embedding covers:
* the data model (`DataPoint`, `Section`, `TiePoint`, `SpliceInterval`),
  from `src/types` as used by `src/services/geminiService.ts` and
  `src/components/DataInputManager.tsx`;
* the composite-splice assembler `compositeSplice` and the splice-interval
  input handler `handleSpliceIntervalChange` (CoreSynthesisView);
* the merge/validation part of `generateAgeModel` (geminiService.ts), with the
  external generative delegate modelled as an oracle parameter;
* the data-point merge-by-depth logic `handleAddDataPoint` (DataInputManager);
* the interpolation engine, modelled from the specification (the source
  delegates this computation to the external service).

Numbers are modelled as rationals: the specification states the core assumes
`depth` and `age`, when present, are finite numbers.  The one claim about NaN
semantics uses a dedicated `JSNum` type.
-/

namespace PaleoCore

/-- A proxy record / data point: the source type `DataPoint` is an open object
with optional numeric `depth` and `age` plus arbitrary further numeric proxy
keys; the open part is modelled as an association list. -/
structure DataPoint where
  depth : Option ℚ
  age : Option ℚ
  proxies : List (String × ℚ)
deriving DecidableEq, Repr

/-- A section: identifier, name, and the ordered data-point series; every other
field of the source `Section` type (core_id, epoch, ageRange, …) is calibration
metadata that the pipeline may only pass through, modelled as one untyped
association list. -/
structure Section where
  id : String
  name : String
  metadata : List (String × String)
  dataPoints : List DataPoint
deriving DecidableEq, Repr

/-- A tie point, from `src/types`: a known age at a given depth of one section. -/
structure TiePoint where
  sectionId : String
  depth : ℚ
  age : ℚ
deriving DecidableEq, Repr

/-- A splice interval, from `src/types`: either bound may be null. -/
structure SpliceInterval where
  sectionId : String
  startAge : Option ℚ
  endAge : Option ℚ
deriving DecidableEq, Repr

/-- Comparator used by the composite splice sort, embedding the JS comparator
`(a, b) => (a.age as number) - (b.age as number)`; absent ages (which cannot
occur among selected records) are read as 0, matching the NaN-comparator
indifference of the source. -/
def ageLE (a b : DataPoint) : Prop := a.age.getD 0 ≤ b.age.getD 0

instance : DecidableRel ageLE := fun a b => inferInstanceAs (Decidable (_ ≤ _))

instance : IsTotal DataPoint ageLE := ⟨fun a b => le_total _ _⟩

instance : IsTrans DataPoint ageLE := ⟨fun _ _ _ h h' => le_trans h h'⟩

/-- Records of one calibrated section selected by its splice interval, from
`compositeSplice` in CoreSynthesisView (DataInputManager.tsx): both bounds must
be non-null, the effective window is `[min, max]`, and a record qualifies when
its `age` is defined and lies inside the window. -/
def selectRecords (intervals : String → Option SpliceInterval) (sec : Section) :
    List DataPoint :=
  match intervals sec.id with
  | none => []
  | some interval =>
    match interval.startAge, interval.endAge with
    | some sa, some ea =>
      sec.dataPoints.filter (fun dp =>
        match dp.age with
        | some a => decide (min sa ea ≤ a ∧ a ≤ max sa ea)
        | none => false)
    | _, _ => []

/-- The composite splice assembler `compositeSplice` (CoreSynthesisView in
DataInputManager.tsx, lines 363–383): empty when calibration has not run,
otherwise the per-section selections concatenated in section order and sorted
ascending by age (JS `Array.prototype.sort` is stable; `insertionSort` is the
stable sort of the library). -/
def compositeSplice (calibratedSections : Option (List Section))
    (spliceIntervals : String → Option SpliceInterval) : List DataPoint :=
  match calibratedSections with
  | none => []
  | some secs =>
    List.insertionSort ageLE (secs.flatMap (selectRecords spliceIntervals))

/-- Swapping the two bounds of a splice interval (entering the same window in
the opposite direction). -/
def swapBounds (iv : SpliceInterval) : SpliceInterval :=
  { iv with startAge := iv.endAge, endAge := iv.startAge }

/-- Membership in the per-section selection, characterised. -/
theorem mem_selectRecords {intervals : String → Option SpliceInterval}
    {sec : Section} {dp : DataPoint} :
    dp ∈ selectRecords intervals sec ↔
      dp ∈ sec.dataPoints ∧ ∃ iv, intervals sec.id = some iv ∧
        ∃ sa ea a, iv.startAge = some sa ∧ iv.endAge = some ea ∧
          dp.age = some a ∧ min sa ea ≤ a ∧ a ≤ max sa ea := by
  cases h : intervals sec.id with
  | none => simp [selectRecords, h]
  | some iv =>
    cases hs : iv.startAge with
    | none => simp [selectRecords, h, hs]
    | some sa =>
      cases he : iv.endAge with
      | none => simp [selectRecords, h, hs, he]
      | some ea =>
        cases ha : dp.age with
        | none => simp [selectRecords, h, hs, he, ha, List.mem_filter]
        | some a => simp [selectRecords, h, hs, he, ha, List.mem_filter, and_assoc]

theorem selectRecords_swapBounds (intervals : String → Option SpliceInterval)
    (sec : Section) :
    selectRecords (fun sid => (intervals sid).map swapBounds) sec =
      selectRecords intervals sec := by
  cases h : intervals sec.id with
  | none => simp [selectRecords, h]
  | some iv =>
    cases hs : iv.startAge <;> cases he : iv.endAge <;>
      simp [selectRecords, swapBounds, h, hs, he, min_comm, max_comm]

/-- C7: Splice-interval selection is order-independent: swapping the startAge
and endAge of every interval (in particular turning startAge=50, endAge=10 into
startAge=10, endAge=50) leaves the composite splice unchanged, because the
effective window is the min/max normalisation of the two bounds. -/
theorem C7_splice_order_independence (cs : Option (List Section))
    (intervals : String → Option SpliceInterval) :
    compositeSplice cs (fun sid => (intervals sid).map swapBounds) =
      compositeSplice cs intervals := by
  cases cs with
  | none => rfl
  | some secs =>
    simp only [compositeSplice]
    congr 1
    exact List.flatMap_congr (fun sec _ => selectRecords_swapBounds intervals sec)

/-- C4: the composite splice assembler returns the empty series when
calibratedSections is absent; otherwise it returns a permutation of the
concatenation, across sections, of exactly those records whose section has a
fully-specified interval and whose defined age lies in the min/max-normalised
window, and the result is sorted ascending by age. -/
theorem C4_assemble_spec (secs : List Section)
    (intervals : String → Option SpliceInterval) :
    (∀ ivs : String → Option SpliceInterval, compositeSplice none ivs = []) ∧
    (compositeSplice (some secs) intervals).Sorted ageLE ∧
    List.Perm (compositeSplice (some secs) intervals)
      (secs.flatMap (selectRecords intervals)) ∧
    (∀ dp, dp ∈ compositeSplice (some secs) intervals ↔
      ∃ sec ∈ secs, dp ∈ sec.dataPoints ∧ ∃ iv, intervals sec.id = some iv ∧
        ∃ sa ea a, iv.startAge = some sa ∧ iv.endAge = some ea ∧
          dp.age = some a ∧ min sa ea ≤ a ∧ a ≤ max sa ea) := by
  refine ⟨fun _ => rfl, List.sorted_insertionSort _ _,
    List.perm_insertionSort _ _, fun dp => ?_⟩
  simp only [compositeSplice, List.mem_insertionSort, List.mem_flatMap,
    mem_selectRecords]

/-- Age value attached to a data point of the delegate's JSON response: a
number, JSON null, an absent key, or a value of some non-numeric type (the
merge guards with `typeof calculatedAge === 'number'`). -/
inductive RespAge where
  | num (q : ℚ)
  | null
  | absent
  | nonNumeric
deriving DecidableEq, Repr

/-- One data point of the delegate's response (depth is required by the
response schema). -/
structure RespPoint where
  depth : ℚ
  age : RespAge
deriving DecidableEq, Repr

/-- One section of the delegate's response; `id` or `dataPoints` may be
missing when the delegate deviates from the declared response schema. -/
structure RespSection where
  id : Option String
  dataPoints : Option (List RespPoint)
deriving DecidableEq, Repr

/-- Result of the delegate call inside generateAgeModel: the transport may
throw (network/quota), the returned text may fail JSON.parse, or it parses to
an object whose calibratedSections key may be missing. -/
inductive DelegateResult where
  | unavailable
  | unparseable
  | parsed (calibratedSections : Option (List RespSection))
deriving DecidableEq, Repr

/-- Per-point projection of promptData: only the depth is sent. -/
structure ReqPoint where
  depth : Option ℚ
deriving DecidableEq, Repr

/-- Per-section projection of promptData. -/
structure ReqSection where
  id : String
  name : String
  dataPoints : List ReqPoint
deriving DecidableEq, Repr

/-- The request sent to the delegate. -/
structure AgeModelRequest where
  sections : List ReqSection
  tiePoints : List TiePoint
deriving DecidableEq, Repr

/-- promptData of generateAgeModel (geminiService.ts lines 259–270): sections
reduced to id, name and depth-only data points, plus the tie points. -/
def mkAgeModelRequest (sections : List Section) (tiePoints : List TiePoint) :
    AgeModelRequest :=
  { sections := sections.map (fun s =>
      { id := s.id, name := s.name,
        dataPoints := s.dataPoints.map (fun dp => { depth := dp.depth }) }),
    tiePoints := tiePoints.map (fun tp =>
      { sectionId := tp.sectionId, depth := tp.depth, age := tp.age }) }

/-- Lookup in the ageMap built by `new Map(entries)`: when several entries
share a key, the last one wins. -/
def lookupLast (pts : List RespPoint) (d : ℚ) : Option RespAge :=
  ((pts.filter (fun p => decide (p.depth = d))).getLast?).map RespPoint.age

/-- The merge's `parseFloat(calculatedAge.toFixed(4))`: rounding to four
decimal places (the JS decimal-string rounding is modelled as rounding to the
nearest multiple of 1/10000). -/
def roundTo4 (q : ℚ) : ℚ := round (q * 10000) / 10000

/-- Merge of one original data point with the delegate's age map
(generateAgeModel lines 331–337): the age becomes the rounded delegate value
when the map holds a number at exactly this record's depth, and is unset
otherwise — erasing any previous age; every other field is spread through
unchanged. -/
def calibratePoint (ageOf : ℚ → Option RespAge) (dp : DataPoint) : DataPoint :=
  { dp with age :=
      match dp.depth.bind ageOf with
      | some (RespAge.num q) => some (roundTo4 q)
      | _ => none }

/-- List.map where the mapped function may throw, modelling a JS
Array.prototype.map whose callback may raise: the first exception aborts the
whole map, so no partial list escapes. -/
def mapOrThrow (F : α → Except ε β) : List α → Except ε (List β)
  | [] => .ok []
  | a :: as =>
    match F a with
    | .error e => .error e
    | .ok b =>
      match mapOrThrow F as with
      | .error e => .error e
      | .ok bs => .ok (b :: bs)

/-- Merge for one original section (generateAgeModel lines 327–341): find the
first response section with this section's id (a response section without an
id matches nothing); absent → pass the original through unchanged; present →
rebuild the ageMap and recalibrate every data point; present but without a
dataPoints array → the merge throws (the Map is built from undefined). -/
def calibrateSection (css : List RespSection) (sec : Section) :
    Except String Section :=
  match css.find? (fun cs => decide (cs.id = some sec.id)) with
  | none => .ok sec
  | some cd =>
    match cd.dataPoints with
    | none => .error "AI Age Model Error: TypeError"
    | some pts =>
      .ok { sec with
            dataPoints := sec.dataPoints.map (calibratePoint (lookupLast pts)) }

/-- generateAgeModel (geminiService.ts lines 240–349) with the external
generative call modelled as an oracle from the request to a DelegateResult.
Any exception — unavailable transport, unparseable JSON, a missing
calibratedSections array, a matched response section without dataPoints — is
caught by the surrounding try/catch and rethrown as one failure for the whole
invocation, so either every section is merged or none is. -/
def generateAgeModel (sections : List Section) (tiePoints : List TiePoint)
    (delegate : AgeModelRequest → DelegateResult) :
    Except String (List Section) :=
  match delegate (mkAgeModelRequest sections tiePoints) with
  | .unavailable => .error "AI Age Model Error"
  | .unparseable => .error "AI Age Model Error"
  | .parsed none => .error "AI Age Model Error"
  | .parsed (some css) => mapOrThrow (calibrateSection css) sections

/-- A successful mapOrThrow relates inputs and outputs elementwise. -/
theorem mapOrThrow_ok {F : α → Except ε β} :
    ∀ {l : List α} {out : List β}, mapOrThrow F l = .ok out →
      List.Forall₂ (fun a b => F a = .ok b) l out := by
  intro l
  induction l with
  | nil =>
    intro out h
    simp only [mapOrThrow, Except.ok.injEq] at h
    subst h
    exact .nil
  | cons a as ih =>
    intro out h
    cases hF : F a with
    | error e => simp [mapOrThrow, hF] at h
    | ok b =>
      cases hR : mapOrThrow F as with
      | error e => simp [mapOrThrow, hF, hR] at h
      | ok bs =>
        simp only [mapOrThrow, hF, hR, Except.ok.injEq] at h
        subst h
        exact .cons hF (ih hR)

/-- Frame agreement between an input and an output data point: every field
except age coincides. -/
def pointFrame (dp dp' : DataPoint) : Prop :=
  dp'.depth = dp.depth ∧ dp'.proxies = dp.proxies

/-- Frame agreement between an input and an output section: identifier, name
and all other metadata coincide, and the data points agree pointwise on every
field except age. -/
def sectionFrame (s s' : Section) : Prop :=
  s'.id = s.id ∧ s'.name = s.name ∧ s'.metadata = s.metadata ∧
    List.Forall₂ pointFrame s.dataPoints s'.dataPoints

theorem calibrateSection_frame {css : List RespSection} {sec out : Section}
    (h : calibrateSection css sec = .ok out) : sectionFrame sec out := by
  unfold calibrateSection at h
  split at h
  · simp only [Except.ok.injEq] at h
    subst h
    exact ⟨rfl, rfl, rfl, List.forall₂_same.2 (fun dp _ => ⟨rfl, rfl⟩)⟩
  · split at h
    · cases h
    · simp only [Except.ok.injEq] at h
      subst h
      refine ⟨rfl, rfl, rfl, ?_⟩
      rw [List.forall₂_map_right_iff]
      exact List.forall₂_same.2 (fun dp _ => ⟨rfl, rfl⟩)

/-- C5: calibration alters no record field other than age and no section field
other than the data-point sequence: whenever generateAgeModel succeeds, input
and output sections agree elementwise on identifier, name and metadata, and
their data points agree elementwise on depth and on every proxy field. -/
theorem C5_field_preservation (sections : List Section)
    (tiePoints : List TiePoint) (delegate : AgeModelRequest → DelegateResult)
    (out : List Section)
    (h : generateAgeModel sections tiePoints delegate = .ok out) :
    List.Forall₂ sectionFrame sections out := by
  unfold generateAgeModel at h
  split at h
  · cases h
  · cases h
  · cases h
  · exact (mapOrThrow_ok h).imp (fun _ _ hab => calibrateSection_frame hab)

/-- Example input data for concrete evaluations of the calibration merge. -/
def exSection : Section :=
  { id := "s1", name := "Section 1",
    metadata := [("core_id", "c1"), ("epoch", "Holocene")],
    dataPoints := [{ depth := some 1, age := none,
                     proxies := [("delta18O", 2)] }] }

/-- The delegate used in concrete merge evaluations: it always answers with
age 42 at depth 1 of section s1. -/
def exDelegate : AgeModelRequest → DelegateResult := fun _ =>
  DelegateResult.parsed
    (some [{ id := some "s1",
             dataPoints := some [{ depth := 1, age := RespAge.num 42 }] }])

theorem roundTo4_42 : roundTo4 42 = 42 := by
  norm_num [roundTo4, round_eq]

/-- Witness for C5 at a concrete input: the delegate assigns age 42 at depth 1
and the frame of the section survives the merge. -/
theorem C5_field_preservation_witness :
    List.Forall₂ sectionFrame [exSection]
      [{ exSection with
         dataPoints := [{ depth := some 1, age := some 42,
                          proxies := [("delta18O", 2)] }] }] :=
  C5_field_preservation [exSection] [] exDelegate _
    (by simp [generateAgeModel, exDelegate, mapOrThrow, calibrateSection,
          calibratePoint, lookupLast, exSection, roundTo4_42])

/-- C2: the merge performs no validation against invented ages: with zero
tie-points for section s1, a delegate response that nonetheless carries an age
for depth 1 is merged as-is, and the output record receives age 42 where the
specified behaviour is that it must stay absent. -/
theorem C2_no_validation_eval :
    generateAgeModel [exSection] [] exDelegate =
      .ok [{ exSection with
             dataPoints := [{ depth := some 1, age := some 42,
                              proxies := [("delta18O", 2)] }] }] := by
  simp [generateAgeModel, exDelegate, mapOrThrow, calibrateSection,
    calibratePoint, lookupLast, exSection, roundTo4_42]

/-- C3 (counterexample): with identical (sections, tiePoints), two invocations
whose generative delegate answers differently produce different outputs, so
the result of generateAgeModel is not a function of (sections, tiePoints)
alone. -/
theorem C3_counterexample :
    generateAgeModel [exSection] []
        (fun _ => DelegateResult.parsed (some [])) ≠
      generateAgeModel [exSection] [] (fun _ => DelegateResult.parsed none) := by
  intro h
  rw [show generateAgeModel [exSection] []
        (fun _ => DelegateResult.parsed (some [])) = Except.ok [exSection]
      from rfl] at h
  rw [show generateAgeModel [exSection] [] (fun _ => DelegateResult.parsed none)
        = Except.error "AI Age Model Error" from rfl] at h
  cases h

/-- C3 (amended): calibration is deterministic relative to the delegate
response: the output depends on (sections, tiePoints) only through the request
sent, so two invocations whose delegates answer that request identically
produce identical outputs. -/
theorem C3_deterministic_given_response (sections : List Section)
    (tiePoints : List TiePoint) (f g : AgeModelRequest → DelegateResult)
    (h : f (mkAgeModelRequest sections tiePoints) =
        g (mkAgeModelRequest sections tiePoints)) :
    generateAgeModel sections tiePoints f =
      generateAgeModel sections tiePoints g := by
  unfold generateAgeModel
  rw [h]

/-- Witness for the amended C3: two syntactically different delegates that
agree on the example request yield identical outputs. -/
theorem C3_deterministic_witness :
    generateAgeModel [exSection] [] (fun _ => DelegateResult.parsed none) =
      generateAgeModel [exSection] []
        (fun r => if r.sections.length = 1 then DelegateResult.parsed none
          else DelegateResult.unavailable) :=
  C3_deterministic_given_response [exSection] [] _ _ (by rfl)

/-- Whenever generateAgeModel succeeds, the output has one section per input
section. -/
theorem generateAgeModel_ok_length {sections : List Section}
    {tiePoints : List TiePoint} {delegate : AgeModelRequest → DelegateResult}
    {out : List Section}
    (h : generateAgeModel sections tiePoints delegate = .ok out) :
    out.length = sections.length := by
  unfold generateAgeModel at h
  split at h
  · cases h
  · cases h
  · cases h
  · exact (mapOrThrow_ok h).length_eq.symm

/-- Elementwise relation extracted at a member of the left list. -/
theorem forall₂_mem_left {R : α → β → Prop} {l : List α} {l' : List β}
    (h : List.Forall₂ R l l') {a : α} (ha : a ∈ l) : ∃ b ∈ l', R a b := by
  induction h with
  | nil => cases ha
  | cons hab _ ih =>
    cases ha with
    | head => exact ⟨_, List.mem_cons_self _ _, hab⟩
    | tail _ ha =>
      rcases ih ha with ⟨b, hb, hR⟩
      exact ⟨b, List.mem_cons_of_mem _ hb, hR⟩

/-- C6 (counterexample): a response section with a missing id, and one with a
non-numeric age at a matching depth, do not fail the invocation: in both cases
generateAgeModel succeeds, deviating from the claimed whole-operation failure
on any response shape deviation. -/
theorem C6_counterexample :
    generateAgeModel [exSection] []
        (fun _ => DelegateResult.parsed
          (some [{ id := none,
                   dataPoints := some [{ depth := 1, age := RespAge.num 99 }] }]))
      = .ok [exSection] ∧
    generateAgeModel [exSection] []
        (fun _ => DelegateResult.parsed
          (some [{ id := some "s1",
                   dataPoints :=
                     some [{ depth := 1, age := RespAge.nonNumeric }] }]))
      = .ok [exSection] := by
  constructor
  · rfl
  · rfl

/-- C6 (amended): the invocation fails as one atomic unit when the delegate is
unavailable, its output is unparseable, the calibratedSections array is
missing, or a matched response section has no dataPoints array; and every run
either returns a fully merged section list (one output section per input
section) or a single error with no partial result. (A response section whose
id is missing or unknown is skipped, and a non-numeric age is treated as
absent — neither fails, by C6_counterexample.) -/
theorem C6_amended (sections : List Section) (tiePoints : List TiePoint)
    (delegate : AgeModelRequest → DelegateResult) :
    (delegate (mkAgeModelRequest sections tiePoints) = .unavailable →
      generateAgeModel sections tiePoints delegate =
        .error "AI Age Model Error") ∧
    (delegate (mkAgeModelRequest sections tiePoints) = .unparseable →
      generateAgeModel sections tiePoints delegate =
        .error "AI Age Model Error") ∧
    (delegate (mkAgeModelRequest sections tiePoints) = .parsed none →
      generateAgeModel sections tiePoints delegate =
        .error "AI Age Model Error") ∧
    (∀ css sec cd,
      delegate (mkAgeModelRequest sections tiePoints) = .parsed (some css) →
      sec ∈ sections →
      css.find? (fun cs => decide (cs.id = some sec.id)) = some cd →
      cd.dataPoints = none →
      ∃ msg, generateAgeModel sections tiePoints delegate = .error msg) ∧
    ((∃ out, generateAgeModel sections tiePoints delegate = .ok out ∧
        out.length = sections.length) ∨
      ∃ msg, generateAgeModel sections tiePoints delegate = .error msg) := by
  refine ⟨fun h => ?_, fun h => ?_, fun h => ?_,
    fun css sec cd hresp hmem hfind hdp => ?_, ?_⟩
  · unfold generateAgeModel; rw [h]
  · unfold generateAgeModel; rw [h]
  · unfold generateAgeModel; rw [h]
  · cases hr : generateAgeModel sections tiePoints delegate with
    | error e => exact ⟨e, rfl⟩
    | ok out =>
      exfalso
      unfold generateAgeModel at hr
      rw [hresp] at hr
      have hr' : mapOrThrow (calibrateSection css) sections = Except.ok out := hr
      rcases forall₂_mem_left (mapOrThrow_ok hr') hmem with ⟨b, _, hb⟩
      unfold calibrateSection at hb
      split at hb
      next hfind2 => rw [hfind] at hfind2; cases hfind2
      next cd2 hfind2 =>
        rw [hfind] at hfind2
        injection hfind2 with hcd2
        subst hcd2
        split at hb
        · cases hb
        next pts hdp2 => rw [hdp] at hdp2; cases hdp2
  · cases hr : generateAgeModel sections tiePoints delegate with
    | error e => exact Or.inr ⟨e, rfl⟩
    | ok out => exact Or.inl ⟨out, rfl, generateAgeModel_ok_length hr⟩

/-- Witness for the amended C6: an unavailable delegate fails the example
invocation, and a matched response section without dataPoints fails it too. -/
theorem C6_amended_witness :
    generateAgeModel [exSection] [] (fun _ => DelegateResult.unavailable) =
      .error "AI Age Model Error" ∧
    ∃ msg, generateAgeModel [exSection] []
        (fun _ => DelegateResult.parsed
          (some [{ id := some "s1", dataPoints := none }])) = .error msg :=
  ⟨(C6_amended [exSection] [] _).1 rfl,
   (C6_amended [exSection] [] _).2.2.2.1
     [{ id := some "s1", dataPoints := none }] exSection
     { id := some "s1", dataPoints := none } rfl (by simp) rfl rfl⟩

/-- Characterisation of the merge of one section against the response: a
section missing from the response passes through unchanged; a matched section
gets exactly the ages of the response's last entry at each record's depth,
numeric entries only, rounded — any previous age is erased. -/
theorem calibrateSection_char {css : List RespSection} {sec outSec : Section}
    (h : calibrateSection css sec = .ok outSec) :
    (css.find? (fun cs => decide (cs.id = some sec.id)) = none →
      outSec = sec) ∧
    (∀ cd pts, css.find? (fun cs => decide (cs.id = some sec.id)) = some cd →
      cd.dataPoints = some pts →
      List.Forall₂ (fun dp dp' =>
        (∀ q, dp'.age = some q ↔ ∃ d a, dp.depth = some d ∧
            lookupLast pts d = some (RespAge.num a) ∧ q = roundTo4 a) ∧
        (dp'.age = none ↔ ¬ ∃ d a, dp.depth = some d ∧
            lookupLast pts d = some (RespAge.num a)))
        sec.dataPoints outSec.dataPoints) := by
  unfold calibrateSection at h
  split at h
  next hfind =>
    simp only [Except.ok.injEq] at h
    subst h
    refine ⟨fun _ => rfl, fun cd pts hcd _ => ?_⟩
    rw [hfind] at hcd
    cases hcd
  next cd0 hfind =>
    split at h
    next => cases h
    next pts0 hdp0 =>
      simp only [Except.ok.injEq] at h
      subst h
      refine ⟨fun hnone => ?_, fun cd pts hcd hpts => ?_⟩
      · rw [hfind] at hnone; cases hnone
      · rw [hfind] at hcd
        injection hcd with hcd
        subst hcd
        rw [hdp0] at hpts
        injection hpts with hpts
        subst hpts
        rw [List.forall₂_map_right_iff]
        refine List.forall₂_same.2 (fun dp _ => ?_)
        cases hd : dp.depth with
        | none => simp [calibratePoint, hd]
        | some d =>
          cases hl : lookupLast pts0 d with
          | none => simp [calibratePoint, hd, hl]
          | some ra => cases ra <;> simp [calibratePoint, hd, hl, eq_comm]

/-- The input section for the duplicate-depth counterexample: one record at
depth 1 whose age was previously 7. -/
def sec9 : Section :=
  { id := "s1", name := "S1", metadata := [],
    dataPoints := [{ depth := some 1, age := some 7, proxies := [] }] }

/-- A response section that lists depth 1 twice: first with numeric age 5,
then with null. -/
def dupPoints : List RespPoint :=
  [{ depth := 1, age := RespAge.num 5 }, { depth := 1, age := RespAge.null }]

/-- C9 (counterexample): the response contains a data point with depth 1 and
numeric age 5, yet the output record at depth 1 ends with no age, because the
ageMap keeps only the last response entry per depth (here null) — refuting
"age defined iff the response contains a numeric-aged point at that depth".
The record's previous age 7 is erased as well. -/
theorem C9_counterexample :
    ({ depth := 1, age := RespAge.num 5 } : RespPoint) ∈ dupPoints ∧
    generateAgeModel [sec9] []
        (fun _ => DelegateResult.parsed
          (some [{ id := some "s1", dataPoints := some dupPoints }])) =
      .ok [{ sec9 with
             dataPoints :=
               [{ depth := some 1, age := none, proxies := [] }] }] :=
  ⟨List.mem_cons_self _ _, rfl⟩

/-- C9 (amended): after a successful calibration whose response parses to the
section list css, each input section pairs with its output section so that a
section with no matching id in css passes through unchanged, and in a matched
section a record's age is defined iff the last response data point at exactly
the record's depth carries a numeric age (then the age is that number rounded
to four decimals); otherwise the age is unset, erasing any prior value. -/
theorem C9_age_semantics (sections : List Section) (tiePoints : List TiePoint)
    (delegate : AgeModelRequest → DelegateResult) (css : List RespSection)
    (out : List Section)
    (hresp : delegate (mkAgeModelRequest sections tiePoints) =
      DelegateResult.parsed (some css))
    (h : generateAgeModel sections tiePoints delegate = .ok out) :
    List.Forall₂ (fun sec outSec =>
      (css.find? (fun cs => decide (cs.id = some sec.id)) = none →
        outSec = sec) ∧
      (∀ cd pts,
        css.find? (fun cs => decide (cs.id = some sec.id)) = some cd →
        cd.dataPoints = some pts →
        List.Forall₂ (fun dp dp' =>
          (∀ q, dp'.age = some q ↔ ∃ d a, dp.depth = some d ∧
              lookupLast pts d = some (RespAge.num a) ∧ q = roundTo4 a) ∧
          (dp'.age = none ↔ ¬ ∃ d a, dp.depth = some d ∧
              lookupLast pts d = some (RespAge.num a)))
          sec.dataPoints outSec.dataPoints)) sections out := by
  unfold generateAgeModel at h
  rw [hresp] at h
  have h' : mapOrThrow (calibrateSection css) sections = Except.ok out := h
  exact (mapOrThrow_ok h').imp (fun _ _ hab => calibrateSection_char hab)

/-- Witness for the amended C9 at the duplicate-depth example. -/
theorem C9_age_semantics_witness :
    List.Forall₂ (fun sec outSec =>
      ([({ id := some "s1",
           dataPoints := some dupPoints } : RespSection)].find?
          (fun cs => decide (cs.id = some sec.id)) = none → outSec = sec) ∧
      (∀ cd pts,
        [({ id := some "s1",
            dataPoints := some dupPoints } : RespSection)].find?
          (fun cs => decide (cs.id = some sec.id)) = some cd →
        cd.dataPoints = some pts →
        List.Forall₂ (fun dp dp' =>
          (∀ q, dp'.age = some q ↔ ∃ d a, dp.depth = some d ∧
              lookupLast pts d = some (RespAge.num a) ∧ q = roundTo4 a) ∧
          (dp'.age = none ↔ ¬ ∃ d a, dp.depth = some d ∧
              lookupLast pts d = some (RespAge.num a)))
          sec.dataPoints outSec.dataPoints))
      [sec9]
      [{ sec9 with
         dataPoints := [{ depth := some 1, age := none, proxies := [] }] }] :=
  C9_age_semantics [sec9] []
    (fun _ => DelegateResult.parsed
      (some [{ id := some "s1", dataPoints := some dupPoints }]))
    _ _ rfl rfl

/-- Comparator of the data-point sort in handleAddDataPoint and
handleConfirmMapping, embedding `(a.depth || 0) - (b.depth || 0)`: ascending
by depth with an absent depth read as 0. -/
def depthLE (a b : DataPoint) : Prop := a.depth.getD 0 ≤ b.depth.getD 0

instance : DecidableRel depthLE :=
  fun a b => inferInstanceAs (Decidable (_ ≤ _))

instance : IsTotal DataPoint depthLE := ⟨fun a b => le_total _ _⟩

instance : IsTrans DataPoint depthLE := ⟨fun _ _ _ h h' => le_trans h h'⟩

/-- JS property access on the open proxy-key part of a record, modelled on the
association list: the first entry with the key wins. -/
def lookupField (k : String) : List (String × ℚ) → Option ℚ
  | [] => none
  | kv :: rest => if k = kv.1 then some kv.2 else lookupField k rest

/-- JS object spread on the open proxy keys, embedding
`{...existing, ...newPointData}`: keys of the existing object keep their
position, with the value overwritten when the incoming object has the key;
keys only in the incoming object are appended in its order. -/
def mergeFields (old nw : List (String × ℚ)) : List (String × ℚ) :=
  old.map (fun kv =>
    match lookupField kv.1 nw with
    | some v => (kv.1, v)
    | none => kv) ++
  nw.filter (fun kv => (lookupField kv.1 old).isNone)

/-- The merged data point of handleAddDataPoint's update path: the incoming
object `{depth: depthValue, ...proxies}` carries no age key, so the existing
age survives the spread, the depth stays depthValue (equal to the existing
depth), and the proxy keys are overwritten fieldwise. -/
def mergeAddedPoint (old : DataPoint) (depthValue : ℚ)
    (proxies : List (String × ℚ)) : DataPoint :=
  { depth := some depthValue, age := old.age,
    proxies := mergeFields old.proxies proxies }

/-- handleAddDataPoint (DataInputManager.tsx lines 57–106), its data path once
validation has ensured a parsed depth and at least one proxy value: the new
point either merges into the existing point whose depth is exactly equal, or
is appended, and the result is re-sorted ascending by depth. -/
def handleAddDataPoint (dataPoints : List DataPoint) (depthValue : ℚ)
    (proxies : List (String × ℚ)) : List DataPoint :=
  match dataPoints.findIdx? (fun dp => decide (dp.depth = some depthValue)) with
  | some i =>
    List.insertionSort depthLE
      (dataPoints.set i
        (mergeAddedPoint (dataPoints.getD i { depth := none, age := none, proxies := [] })
          depthValue proxies))
  | none =>
    List.insertionSort depthLE
      (dataPoints ++
        [{ depth := some depthValue, age := none, proxies := proxies }])

theorem lookupField_append (k : String) (l₁ l₂ : List (String × ℚ)) :
    lookupField k (l₁ ++ l₂) = (lookupField k l₁).or (lookupField k l₂) := by
  induction l₁ with
  | nil => simp [lookupField]
  | cons kv rest ih =>
    by_cases hk : k = kv.1 <;> simp [lookupField, hk, ih]

theorem lookupField_overwrite (k : String) (old nw : List (String × ℚ)) :
    lookupField k (old.map (fun kv =>
        match lookupField kv.1 nw with
        | some v => (kv.1, v)
        | none => kv)) =
      (lookupField k old).map (fun v => (lookupField k nw).getD v) := by
  induction old with
  | nil => simp [lookupField]
  | cons kv rest ih =>
    by_cases hk : k = kv.1
    · subst hk
      cases hnw : lookupField kv.1 nw <;> simp [lookupField, hnw]
    · cases hv : lookupField kv.1 nw <;> simp [lookupField, hk, hv, ih]

theorem lookupField_filter_fresh (k : String) (old nw : List (String × ℚ)) :
    lookupField k (nw.filter (fun kv => (lookupField kv.1 old).isNone)) =
      if lookupField k old = none then lookupField k nw else none := by
  induction nw with
  | nil => simp [lookupField]
  | cons kv rest ih =>
    by_cases hk : k = kv.1
    · subst hk
      cases ho : lookupField kv.1 old <;>
        simp [lookupField, List.filter_cons, ho, ih]
    · cases ho : lookupField kv.1 old <;>
        simp [lookupField, List.filter_cons, ho, ih, hk]

/-- Fieldwise-overwrite semantics of the spread: the incoming value wins,
otherwise the existing value survives. -/
theorem lookupField_mergeFields (k : String) (old nw : List (String × ℚ)) :
    lookupField k (mergeFields old nw) =
      (lookupField k nw).or (lookupField k old) := by
  unfold mergeFields
  rw [lookupField_append, lookupField_overwrite, lookupField_filter_fresh]
  cases ho : lookupField k old <;> cases hn : lookupField k nw <;> simp

theorem findIdx?_some_pred {α : Type} (l : List α) (p : α → Bool) (i : Nat)
    (dflt : α) (h : l.findIdx? p = some i) :
    i < l.length ∧ p (l.getD i dflt) = true := by
  rw [List.findIdx?_eq_some_iff_findIdx_eq] at h
  obtain ⟨h1, h2⟩ := h
  refine ⟨h1, ?_⟩
  have hw : l.findIdx p < l.length := h2 ▸ h1
  have := @List.findIdx_getElem _ _ l hw
  rw [List.getD_eq_getElem?_getD, List.getElem?_eq_getElem h1]
  simpa [h2] using this

/-- The default record used with getD (never actually selected: the index
returned by findIdx? is always in range). -/
def emptyPoint : DataPoint := { depth := none, age := none, proxies := [] }

/-- C8: depth is the natural key of a section's data-point sequence. Adding a
point at an existing depth merges fieldwise into that record — the existing
depth and age survive, incoming proxy values overwrite existing keys, fresh
keys are added, the sequence keeps its length (no duplicate) and is a
permutation of the pointwise update; adding at a fresh depth appends the new
record; in both cases the result is sorted ascending by depth. -/
theorem C8_depth_natural_key (pts : List DataPoint) (d : ℚ)
    (prox : List (String × ℚ)) :
    (handleAddDataPoint pts d prox).Sorted depthLE ∧
    (∀ i, pts.findIdx? (fun dp => decide (dp.depth = some d)) = some i →
      (pts.getD i emptyPoint).depth = some d ∧
      (handleAddDataPoint pts d prox).length = pts.length ∧
      List.Perm (handleAddDataPoint pts d prox)
        (pts.set i (mergeAddedPoint (pts.getD i emptyPoint) d prox)) ∧
      (mergeAddedPoint (pts.getD i emptyPoint) d prox).depth = some d ∧
      (mergeAddedPoint (pts.getD i emptyPoint) d prox).age =
        (pts.getD i emptyPoint).age ∧
      (∀ k, lookupField k (mergeAddedPoint (pts.getD i emptyPoint) d prox).proxies =
        (lookupField k prox).or (lookupField k (pts.getD i emptyPoint).proxies))) ∧
    (pts.findIdx? (fun dp => decide (dp.depth = some d)) = none →
      List.Perm (handleAddDataPoint pts d prox)
        (pts ++ [{ depth := some d, age := none, proxies := prox }])) := by
  refine ⟨?_, fun i hfi => ?_, fun hfn => ?_⟩
  · unfold handleAddDataPoint
    split
    · exact List.sorted_insertionSort _ _
    · exact List.sorted_insertionSort _ _
  · have hpred := (findIdx?_some_pred pts _ i emptyPoint hfi).2
    simp only [decide_eq_true_eq] at hpred
    refine ⟨hpred, ?_, ?_, rfl, rfl,
      fun k => lookupField_mergeFields k _ prox⟩
    · unfold handleAddDataPoint
      rw [hfi]
      rw [(List.perm_insertionSort _ _).length_eq, List.length_set]
    · unfold handleAddDataPoint
      rw [hfi]
      exact List.perm_insertionSort _ _
  · unfold handleAddDataPoint
    rw [hfn]
    exact List.perm_insertionSort _ _

/-- Witness for C8 at a concrete input: merging a point at the existing depth
2 of a two-point series. -/
theorem C8_depth_natural_key_witness :
    (handleAddDataPoint
        [{ depth := some 1, age := none, proxies := [("delta18O", 3)] },
         { depth := some 2, age := some 9,
           proxies := [("delta18O", 4), ("tex86", 1)] }]
        2 [("delta18O", 5), ("mgCaRatio", 6)]).Sorted depthLE ∧
    (handleAddDataPoint
        [{ depth := some 1, age := none, proxies := [("delta18O", 3)] },
         { depth := some 2, age := some 9,
           proxies := [("delta18O", 4), ("tex86", 1)] }]
        2 [("delta18O", 5), ("mgCaRatio", 6)]).length = 2 :=
  ⟨(C8_depth_natural_key _ 2 _).1,
   ((C8_depth_natural_key _ 2 _).2.1 1 (by rfl)).2.1⟩

/-- Modelled from the spec: the line through two tie points, evaluated at
depth d (§4.1 step 3: age = a0 + (a1 - a0) * (d - d0) / (d1 - d0)). The
repository has no local interpolation code — generateAgeModel delegates the
computation to the external generative service with instructions matching
§4.1 — so the engine is embedded from the specification's words. -/
def lerp (t0 t1 : ℚ × ℚ) (d : ℚ) : ℚ :=
  t0.2 + (t1.2 - t0.2) * (d - t0.1) / (t1.1 - t0.1)

/-- Modelled from the spec: interpolation over an already depth-sorted
tie-point list — the first consecutive pair whose upper depth bounds d gives
the bracketing (or below-extrapolation) line; past every pair, the last two
tie points extrapolate above. -/
def interpolateSorted : List (ℚ × ℚ) → ℚ → Option ℚ
  | [t0, t1], d => some (lerp t0 t1 d)
  | t0 :: t1 :: t2 :: rest, d =>
    if d ≤ t1.1 then some (lerp t0 t1 d)
    else interpolateSorted (t1 :: t2 :: rest) d
  | _, _ => none

/-- Modelled from the spec: the Interpolation Engine contract (§4.1) — fewer
than two tie-points yields no age for any depth; otherwise tie-points are
sorted ascending by depth and piecewise linear interpolation/extrapolation is
applied. -/
def interpolate (tiePoints : List (ℚ × ℚ)) (d : ℚ) : Option ℚ :=
  if tiePoints.length < 2 then none
  else interpolateSorted
    (List.insertionSort (fun a b => a.1 ≤ b.1) tiePoints) d

theorem lerp_left (t0 t1 : ℚ × ℚ) : lerp t0 t1 t0.1 = t0.2 := by
  simp [lerp]

theorem lerp_right (t0 t1 : ℚ × ℚ) (h : t0.1 ≠ t1.1) :
    lerp t0 t1 t1.1 = t1.2 := by
  rw [lerp, mul_div_assoc, div_self (sub_ne_zero.mpr (Ne.symm h)), mul_one]
  ring

theorem interpolateSorted_bracket {d : ℚ} :
    ∀ {l : List (ℚ × ℚ)}, l.Sorted (fun a b => a.1 < b.1) →
      ∀ {p0 p1 : ℚ × ℚ}, (p0, p1) ∈ l.zip l.tail → p0.1 ≤ d → d ≤ p1.1 →
        interpolateSorted l d = some (lerp p0 p1 d) := by
  intro l
  induction l with
  | nil => intro _ p0 p1 hmem; cases hmem
  | cons t0 tl ih =>
    intro hs p0 p1 hmem hp0 hp1
    cases tl with
    | nil => cases hmem
    | cons t1 tl2 =>
      rcases List.mem_cons.mp hmem with heq | hmem'
      · injection heq with h0 h1
        subst h0; subst h1
        cases tl2 with
        | nil => rfl
        | cons t2 tl3 => simp [interpolateSorted, hp1]
      · cases tl2 with
        | nil => cases hmem'
        | cons t2 tl3 =>
          have hs' : (t1 :: t2 :: tl3).Sorted (fun a b => a.1 < b.1) :=
            hs.of_cons
          by_cases hd1 : d ≤ t1.1
          · have hp0mem : p0 ∈ t1 :: t2 :: tl3 := (List.of_mem_zip hmem').1
            have hp0t1 : p0 = t1 := by
              rcases List.mem_cons.mp hp0mem with h | h
              · exact h
              · exact absurd (lt_of_le_of_lt hp0
                  (lt_of_le_of_lt hd1 (List.rel_of_sorted_cons hs' _ h)))
                  (lt_irrefl _)
            have hdeq : d = t1.1 := le_antisymm hd1 (hp0t1 ▸ hp0)
            have h01 : t0.1 < t1.1 :=
              List.rel_of_sorted_cons hs _ (List.mem_cons_self _ _)
            simp only [interpolateSorted, if_pos hd1]
            rw [hdeq, lerp_right t0 t1 (ne_of_lt h01), hp0t1,
              lerp_left t1 p1]
          · simp only [interpolateSorted, if_neg hd1]
            exact ih hs' hmem' hp0 hp1

theorem interpolateSorted_below {t0 t1 : ℚ × ℚ} {rest : List (ℚ × ℚ)} {d : ℚ}
    (hs : (t0 :: t1 :: rest).Sorted (fun a b => a.1 < b.1)) (hd : d ≤ t0.1) :
    interpolateSorted (t0 :: t1 :: rest) d = some (lerp t0 t1 d) := by
  cases rest with
  | nil => rfl
  | cons t2 tl =>
    have h01 : t0.1 < t1.1 :=
      List.rel_of_sorted_cons hs _ (List.mem_cons_self _ _)
    simp [interpolateSorted, le_of_lt (lt_of_le_of_lt hd h01)]

theorem interpolateSorted_above {d : ℚ} :
    ∀ {init : List (ℚ × ℚ)} {p0 p1 : ℚ × ℚ},
      ((init ++ [p0, p1]).Sorted (fun a b => a.1 < b.1)) → p1.1 ≤ d →
      interpolateSorted (init ++ [p0, p1]) d = some (lerp p0 p1 d) := by
  intro init
  induction init with
  | nil => intro p0 p1 _ _; rfl
  | cons a init' ih =>
    intro p0 p1 hs hd
    have hs' : ((init' ++ [p0, p1]).Sorted (fun a b => a.1 < b.1)) :=
      hs.of_cons
    cases init' with
    | nil =>
      have hp0p1 : p0.1 < p1.1 := by
        simp only [List.nil_append] at hs'
        exact List.rel_of_sorted_cons hs' _ (List.mem_cons_self _ _)
      have hnd : ¬ d ≤ p0.1 := not_le.mpr (lt_of_lt_of_le hp0p1 hd)
      simp only [List.cons_append, List.nil_append]
      simp [interpolateSorted, hnd]
    | cons b init'' =>
      have hbp1 : b.1 < p1.1 := by
        have hsb := hs'
        simp only [List.cons_append] at hsb
        exact List.rel_of_sorted_cons hsb _
          (List.mem_append_right _ (by simp))
      have hnd : ¬ d ≤ b.1 := not_le.mpr (lt_of_lt_of_le hbp1 hd)
      obtain ⟨c, cs, hc⟩ := List.exists_cons_of_ne_nil
        (show init'' ++ [p0, p1] ≠ [] by simp)
      have key : interpolateSorted (a :: (b :: init'') ++ [p0, p1]) d =
          interpolateSorted ((b :: init'') ++ [p0, p1]) d := by
        simp only [List.cons_append, hc]
        simp [interpolateSorted, hnd]
      rw [key]
      exact ih hs' hd

/-- C1: for a section whose tie-points are sorted strictly ascending by depth
(at least two of them), the spec-modelled interpolation engine assigns to
depth d the age a0 + (a1 - a0) * (d - d0) / (d1 - d0) from any bracketing
consecutive tie-point pair, extrapolates from the first two tie points below
the smallest depth and from the last two above the largest, and on the
tie-points (10,100),(20,200) yields age 150 at depth 15, 50 at depth 5 and
300 at depth 30. -/
theorem C1_interpolation (tps : List (ℚ × ℚ)) (d : ℚ)
    (hs : tps.Sorted (fun a b => a.1 < b.1)) (hlen : 2 ≤ tps.length) :
    (∀ p0 p1, (p0, p1) ∈ tps.zip tps.tail → p0.1 ≤ d → d ≤ p1.1 →
      interpolate tps d = some (lerp p0 p1 d)) ∧
    (∀ t0 t1 rest, tps = t0 :: t1 :: rest → d ≤ t0.1 →
      interpolate tps d = some (lerp t0 t1 d)) ∧
    (∀ init p0 p1, tps = init ++ [p0, p1] → p1.1 ≤ d →
      interpolate tps d = some (lerp p0 p1 d)) ∧
    (interpolate [((10 : ℚ), (100 : ℚ)), (20, 200)] 15 = some 150 ∧
     interpolate [((10 : ℚ), (100 : ℚ)), (20, 200)] 5 = some 50 ∧
     interpolate [((10 : ℚ), (100 : ℚ)), (20, 200)] 30 = some 300) := by
  have hinterp : interpolate tps d = interpolateSorted tps d := by
    unfold interpolate
    rw [if_neg (Nat.not_lt.mpr hlen),
      List.Sorted.insertionSort_eq (hs.imp (fun h => le_of_lt h))]
  refine ⟨fun p0 p1 hmem hp0 hp1 => ?_, fun t0 t1 rest heq hd => ?_,
    fun init p0 p1 heq hd => ?_, ?_, ?_, ?_⟩
  · rw [hinterp]; exact interpolateSorted_bracket hs hmem hp0 hp1
  · rw [hinterp, heq]; exact interpolateSorted_below (heq ▸ hs) hd
  · rw [hinterp, heq]; exact interpolateSorted_above (heq ▸ hs) hd
  · norm_num [interpolate, List.insertionSort, List.orderedInsert,
      interpolateSorted, lerp]
  · norm_num [interpolate, List.insertionSort, List.orderedInsert,
      interpolateSorted, lerp]
  · norm_num [interpolate, List.insertionSort, List.orderedInsert,
      interpolateSorted, lerp]

/-- Witness for C1: the spec's P2/P3 examples, with the sortedness and
cardinality hypotheses discharged on the concrete tie-point set. -/
theorem C1_interpolation_witness :
    interpolate [((10 : ℚ), (100 : ℚ)), (20, 200)] 15 = some 150 ∧
    interpolate [((10 : ℚ), (100 : ℚ)), (20, 200)] 5 = some 50 ∧
    interpolate [((10 : ℚ), (100 : ℚ)), (20, 200)] 30 = some 300 :=
  (C1_interpolation [((10 : ℚ), (100 : ℚ)), (20, 200)] 15
    (by simp [List.sorted_cons]; norm_num) (by simp)).2.2.2

/-- A JavaScript number as it can appear in a splice-interval bound: either
NaN (the result of parsing a non-numeric string) or a finite rational. -/
inductive JSNum where
  | nan
  | num (q : ℚ)
deriving DecidableEq, Repr

/-- Math.min with JS NaN semantics: NaN absorbs. -/
def jmin : JSNum → JSNum → JSNum
  | JSNum.nan, _ => JSNum.nan
  | _, JSNum.nan => JSNum.nan
  | JSNum.num a, JSNum.num b => JSNum.num (min a b)

/-- Math.max with JS NaN semantics: NaN absorbs. -/
def jmax : JSNum → JSNum → JSNum
  | JSNum.nan, _ => JSNum.nan
  | _, JSNum.nan => JSNum.nan
  | JSNum.num a, JSNum.num b => JSNum.num (max a b)

/-- The comparison age >= bound of the splice filter: any comparison against
NaN is false. -/
def jgeB (a : ℚ) : JSNum → Bool
  | JSNum.nan => false
  | JSNum.num q => decide (q ≤ a)

/-- The comparison age <= bound of the splice filter: any comparison against
NaN is false. -/
def jleB (a : ℚ) : JSNum → Bool
  | JSNum.nan => false
  | JSNum.num q => decide (a ≤ q)

theorem jmin_nan_right (x : JSNum) : jmin x JSNum.nan = JSNum.nan := by
  cases x <;> rfl

theorem jmax_nan_right (x : JSNum) : jmax x JSNum.nan = JSNum.nan := by
  cases x <;> rfl

/-- Strips a leading sign character, as parseFloat does. -/
def stripSign (cs : List Char) : List Char :=
  match cs with
  | '-' :: r => r
  | '+' :: r => r
  | _ => cs

/-- The sign factor of the parsed number. -/
def signOf (cs : List Char) : ℚ :=
  match cs with
  | '-' :: _ => -1
  | _ => 1

/-- The fractional digits: whatever digits follow a dot after the integer
digits. -/
def fracDigits (rest : List Char) : List Char :=
  match rest.dropWhile Char.isDigit with
  | '.' :: r => r.takeWhile Char.isDigit
  | _ => []

/-- Value of a digit string read in base 10. -/
def intVal (ds : List Char) : ℚ :=
  ds.foldl (fun acc c => 10 * acc + ((c.toNat : ℚ) - 48)) 0

/-- Value of a fractional digit string. -/
def fracVal (ds : List Char) : ℚ := intVal ds / (10 : ℚ) ^ ds.length

/-- The JS parseFloat builtin on plain decimal notation (optional sign, digits,
optional dot and fractional digits), as the splice-interval inputs use it: a
string without a leading numeric prefix parses to NaN rather than raising an
error. Exponent and Infinity forms are outside the scope of the claims. -/
def parseFloatCore (cs : List Char) : JSNum :=
  if ((stripSign cs).takeWhile Char.isDigit).isEmpty
      && (fracDigits (stripSign cs)).isEmpty then JSNum.nan
  else JSNum.num (signOf cs *
    (intVal ((stripSign cs).takeWhile Char.isDigit) +
      fracVal (fracDigits (stripSign cs))))

/-- parseFloat on a string value. -/
def parseFloat (s : String) : JSNum := parseFloatCore s.toList

/-- A splice interval whose bounds carry full JS number semantics. -/
structure SpliceIntervalJS where
  sectionId : String
  startAge : Option JSNum
  endAge : Option JSNum
deriving DecidableEq, Repr

/-- Which bound of the interval an input field edits. -/
inductive BoundField where
  | startAge
  | endAge
deriving DecidableEq, Repr

/-- Reads the edited bound back. -/
def boundOf (iv : SpliceIntervalJS) : BoundField → Option JSNum
  | BoundField.startAge => iv.startAge
  | BoundField.endAge => iv.endAge

/-- handleSpliceIntervalChange (CoreSynthesisView in DataInputManager.tsx,
lines 352–361): an empty string clears the bound to null, any other string is
parseFloat-ed — possibly to NaN — and stored; the other bound is untouched. -/
def handleSpliceIntervalChange (prev : SpliceIntervalJS) (field : BoundField)
    (value : String) : SpliceIntervalJS :=
  let numValue := if value = "" then none else some (parseFloat value)
  match field with
  | BoundField.startAge => { prev with startAge := numValue }
  | BoundField.endAge => { prev with endAge := numValue }

/-- The per-section selection of compositeSplice with JS number semantics on
the bounds: both bounds non-null, window normalised by Math.min/Math.max, and
a record selected when its age is defined and the two comparisons hold —
comparisons against NaN are always false. -/
def selectRecordsJS (intervals : String → Option SpliceIntervalJS)
    (sec : Section) : List DataPoint :=
  match intervals sec.id with
  | none => []
  | some interval =>
    match interval.startAge, interval.endAge with
    | some sa, some ea =>
      sec.dataPoints.filter (fun dp =>
        match dp.age with
        | some a => jgeB a (jmin sa ea) && jleB a (jmax sa ea)
        | none => false)
    | _, _ => []

/-- compositeSplice with JS number semantics on the interval bounds. -/
def compositeSpliceJS (calibratedSections : Option (List Section))
    (spliceIntervals : String → Option SpliceIntervalJS) : List DataPoint :=
  match calibratedSections with
  | none => []
  | some secs =>
    List.insertionSort ageLE (secs.flatMap (selectRecordsJS spliceIntervals))

theorem takeWhile_isDigit_eq_nil {l : List Char}
    (h : ∀ c ∈ l, ¬ c.isDigit = true) : l.takeWhile Char.isDigit = [] := by
  cases l with
  | nil => rfl
  | cons c cs =>
    have := h c (List.mem_cons_self _ _)
    simp [List.takeWhile_cons, this]

theorem dropWhile_isDigit_eq_self {l : List Char}
    (h : ∀ c ∈ l, ¬ c.isDigit = true) : l.dropWhile Char.isDigit = l := by
  cases l with
  | nil => rfl
  | cons c cs =>
    have := h c (List.mem_cons_self _ _)
    simp [List.dropWhile_cons, this]

theorem mem_stripSign {cs : List Char} {c : Char} (hc : c ∈ stripSign cs) :
    c ∈ cs := by
  unfold stripSign at hc
  split at hc
  · exact List.mem_cons_of_mem _ hc
  · exact List.mem_cons_of_mem _ hc
  · exact hc

theorem fracDigits_eq_nil {rest : List Char}
    (h : ∀ c ∈ rest, ¬ c.isDigit = true) : fracDigits rest = [] := by
  unfold fracDigits
  rw [dropWhile_isDigit_eq_self h]
  split
  next r =>
    exact takeWhile_isDigit_eq_nil (fun c hc => h c (List.mem_cons_of_mem _ hc))
  next => rfl

theorem parseFloatCore_nan {cs : List Char}
    (h : ∀ c ∈ cs, ¬ c.isDigit = true) : parseFloatCore cs = JSNum.nan := by
  have hstrip : ∀ c ∈ stripSign cs, ¬ c.isDigit = true :=
    fun c hc => h c (mem_stripSign hc)
  unfold parseFloatCore
  rw [takeWhile_isDigit_eq_nil hstrip, fracDigits_eq_nil hstrip]
  rfl

/-- C10: a non-empty digit-free string stored through
handleSpliceIntervalChange sets the edited bound to NaN (no error is raised —
parsing and assembly are total functions), the untouched bound survives, and a
section whose interval carries a NaN bound contributes no records: its
selection is empty, and composite membership only ever comes from per-section
selections. -/
theorem C10_nan_interval_safety (prev : SpliceIntervalJS) (field : BoundField)
    (v : String) (ivs : String → Option SpliceIntervalJS)
    (secs : List Section) :
    (v ≠ "" → (∀ c ∈ v.toList, ¬ c.isDigit = true) →
      boundOf (handleSpliceIntervalChange prev field v) field =
        some JSNum.nan) ∧
    (∀ sec iv, ivs sec.id = some iv →
      (iv.startAge = some JSNum.nan ∨ iv.endAge = some JSNum.nan) →
      selectRecordsJS ivs sec = []) ∧
    (∀ dp, dp ∈ compositeSpliceJS (some secs) ivs ↔
      ∃ sec ∈ secs, dp ∈ selectRecordsJS ivs sec) ∧
    compositeSpliceJS none ivs = [] := by
  refine ⟨fun hv hnd => ?_, fun sec iv hiv hnan => ?_, fun dp => ?_, rfl⟩
  · have hp : parseFloat v = JSNum.nan := parseFloatCore_nan hnd
    cases field <;> simp [handleSpliceIntervalChange, boundOf, hv, hp]
  · rcases hnan with h | h
    · cases he : iv.endAge with
      | none => simp [selectRecordsJS, hiv, h, he]
      | some e =>
        simp only [selectRecordsJS, hiv, h, he]
        rw [List.filter_eq_nil_iff]
        intro dp _
        cases ha : dp.age <;> simp [ha, jmin, jgeB]
    · cases hsa : iv.startAge with
      | none => simp [selectRecordsJS, hiv, h, hsa]
      | some s =>
        simp only [selectRecordsJS, hiv, h, hsa]
        rw [List.filter_eq_nil_iff]
        intro dp _
        cases ha : dp.age <;> simp [ha, jmin_nan_right, jgeB]
  · simp [compositeSpliceJS, List.mem_insertionSort, List.mem_flatMap]

/-- Witness for C10: the string "abc" sets the start bound to NaN, and a
section with a NaN start bound contributes nothing despite holding a
calibrated record. -/
theorem C10_nan_interval_safety_witness :
    boundOf (handleSpliceIntervalChange
        { sectionId := "s1", startAge := none, endAge := none }
        BoundField.startAge "abc") BoundField.startAge = some JSNum.nan ∧
    selectRecordsJS
      (fun _ => some { sectionId := "s1", startAge := some JSNum.nan,
                       endAge := some (JSNum.num 50) })
      { id := "s1", name := "S1", metadata := [],
        dataPoints := [{ depth := some 1, age := some 10, proxies := [] }] }
      = [] :=
  ⟨(C10_nan_interval_safety
      { sectionId := "s1", startAge := none, endAge := none }
      BoundField.startAge "abc" (fun _ => none) []).1
      (by decide) (by decide),
   ((C10_nan_interval_safety
      { sectionId := "s1", startAge := none, endAge := none }
      BoundField.startAge "abc"
      (fun _ => some { sectionId := "s1", startAge := some JSNum.nan,
                       endAge := some (JSNum.num 50) }) []).2.1
      { id := "s1", name := "S1", metadata := [],
        dataPoints := [{ depth := some 1, age := some 10, proxies := [] }] }
      { sectionId := "s1", startAge := some JSNum.nan,
        endAge := some (JSNum.num 50) }
      rfl (Or.inl rfl))⟩

end PaleoCore
